import Mathlib

/-!
Shallow embedding of the SEC Knowledge Graph Chat System's locally-owned
logic: the query router (`src/query_engine.py`), input validation
(`src/utils.py`), entity extraction, result formatting and the health
monitor.  Python strings are modelled as Lean `String`s manipulated through
their character lists (one `Char` per Python code point); external
collaborators (Neo4j graph store, LLM chain) are modelled as an explicit
environment of fallible functions (`Except` for Python exceptions).
-/

namespace SecKG

/-- Python values as they occur in query results: `None`, booleans,
integers, strings, lists and string-keyed dicts. -/
inductive PyVal where
  | vNone
  | vBool (b : Bool)
  | vInt (n : Int)
  | vStr (s : String)
  | vList (xs : List PyVal)
  | vDict (kvs : List (String × PyVal))

/-- Python `str.lower()` (ASCII case folding, as used by the router). -/
def pyLower (s : String) : String :=
  String.mk (s.toList.map Char.toLower)

/-- Python `len(s)` (number of code points). -/
def pyLen (s : String) : Nat :=
  s.toList.length

/-- Helper for `pyContains`: is `pat` a contiguous substring of `l`? -/
def containsSubAux (pat : List Char) : List Char → Bool
  | [] => pat.isEmpty
  | c :: t => pat.isPrefixOf (c :: t) || containsSubAux pat t

/-- Python `pat in s` (substring membership). -/
def pyContains (s pat : String) : Bool :=
  containsSubAux pat.toList s.toList

/-- Drop characters satisfying `p` from both ends of a character list. -/
def stripList (p : Char → Bool) (l : List Char) : List Char :=
  ((l.dropWhile p).reverse.dropWhile p).reverse

/-- Python `s.strip()` (whitespace stripped from both ends). -/
def pyStripWS (s : String) : String :=
  String.mk (stripList Char.isWhitespace s.toList)

/-- Python `s.strip(chars)` (characters of `cs` stripped from both ends). -/
def pyStripChars (s : String) (cs : List Char) : String :=
  String.mk (stripList (fun c => cs.contains c) s.toList)

/-- Helper for `pyWords`: split on whitespace, dropping empty pieces;
`acc` holds the reversed current word. -/
def pyWordsGo : List Char → List Char → List String
  | [], acc => if acc.isEmpty then [] else [String.mk acc.reverse]
  | c :: cs, acc =>
    if c.isWhitespace then
      if acc.isEmpty then pyWordsGo cs []
      else String.mk acc.reverse :: pyWordsGo cs []
    else pyWordsGo cs (c :: acc)

/-- Python `s.split()` with no arguments: whitespace-delimited words,
no empty pieces. -/
def pyWords (s : String) : List String :=
  pyWordsGo s.toList []

/-- First index of `l` at which `pat` starts as a contiguous substring
(`s.find(pat)` restricted to found/not-found). -/
def findSubAux (pat : List Char) : List Char → Option Nat
  | [] => if pat.isEmpty then some 0 else none
  | c :: t =>
    if pat.isPrefixOf (c :: t) then some 0
    else (findSubAux pat t).map (· + 1)

/-- Python `s.find(pat, start)`, returning an absolute index
(`none` models Python's `-1`). -/
def pyFindFrom (s pat : String) (start : Nat) : Option Nat :=
  (findSubAux pat.toList (s.toList.drop start)).map (· + start)

/-- `validate_question` from `src/utils.py`: the fixed denylist. -/
def inappropriate_terms : List String :=
  ["password", "secret", "confidential"]

/-- `validate_question` from `src/utils.py` lines 23-39. -/
def validate_question (question : String) : Bool × Option String :=
  if question.toList.isEmpty || (pyStripWS question).toList.isEmpty then
    (false, some "Question cannot be empty")
  else if pyLen (pyStripWS question) < 3 then
    (false, some "Question is too short")
  else if pyLen question > 1000 then
    (false, some "Question is too long")
  else if inappropriate_terms.any (fun term => pyContains (pyLower question) term) then
    (false, some "Question contains inappropriate terms")
  else
    (true, none)

/-- Trigger words of `QueryEngine._extract_city_from_question`. -/
def trigger_words : List String := ["in", "near", "at"]

/-- Punctuation passed to `.strip('.,!?')` in city extraction. -/
def city_punct : List Char := ['.', ',', '!', '?']

/-- Loop of `QueryEngine._extract_city_from_question` (lines 106-110):
scan words left to right; at the first trigger word that has a following
word, return that following word with `.strip('.,!?')` applied. -/
def extractCityGo : List String → Option String
  | w :: next :: rest =>
    if trigger_words.contains (pyLower w) then some (pyStripChars next city_punct)
    else extractCityGo (next :: rest)
  | _ => none

/-- `QueryEngine._extract_city_from_question` (lines 102-110). -/
def extractCity (question : String) : Option String :=
  extractCityGo (pyWords question)

/-- `QueryEngine._extract_company_from_question` (lines 112-120):
`start = lower.find("what does") + 9`, `end = lower.find("do", start)`,
result `question[start:end].strip()`; `None` when no `"do"` follows. -/
def extractCompany (question : String) : Option String :=
  let ql := pyLower question
  if pyContains ql "what does" then
    match findSubAux ("what does".toList) ql.toList with
    | none => none
    | some i =>
      let start := i + 9
      match pyFindFrom ql "do" start with
      | none => none
      | some e =>
        some (pyStripWS (String.mk ((question.toList.drop start).take (e - start))))
  else none

mutual

/-- Python `repr` on `PyVal` (used by `str` for elements inside
containers); string escaping is not modelled since no claim exercises it. -/
def pyRepr : PyVal → String
  | .vNone => "None"
  | .vBool b => if b then "True" else "False"
  | .vInt n => toString n
  | .vStr s => "\x27" ++ s ++ "\x27"
  | .vList xs => "[" ++ String.intercalate ", " (pyReprList xs) ++ "]"
  | .vDict kvs => "\x7b" ++ String.intercalate ", " (pyReprDict kvs) ++ "\x7d"

/-- `repr` mapped over the elements of a Python list. -/
def pyReprList : List PyVal → List String
  | [] => []
  | x :: xs => pyRepr x :: pyReprList xs

/-- `repr` of the entries of a Python dict. -/
def pyReprDict : List (String × PyVal) → List String
  | [] => []
  | (k, v) :: kvs => ("\x27" ++ k ++ "\x27: " ++ pyRepr v) :: pyReprDict kvs

end

/-- Python `str(v)`. -/
def pyStr : PyVal → String
  | .vStr s => s
  | v => pyRepr v

/-- Python truthiness of a value (`not v` is true exactly on these). -/
def pyFalsy : PyVal → Bool
  | .vNone => true
  | .vBool b => !b
  | .vInt n => n == 0
  | .vStr s => s.isEmpty
  | .vList xs => xs.isEmpty
  | .vDict kvs => kvs.isEmpty

/-- The result dict built by `process_query` / `generate_and_execute`:
keys `success`, `question`, `result`, `error`. -/
structure QueryResult where
  success : Bool
  question : String
  result : PyVal
  error : Option String

/-- `f"Error: \x7bresult['error']\x7d"`: Python's string interpolation of
the optional error message (`None` prints as `"None"`). -/
def strOfError : Option String → String
  | none => "None"
  | some s => s

/-- One record formatted by `format_result` (lines 137-141): dicts become
`"key: value"` pairs of the non-`None` fields joined by `" | "` and
word-wrapped; other items are `str`-ed and word-wrapped.  `fill` models
`textwrap.fill` (an external library function). -/
def formatItem (fill : String → Nat → String) (width : Nat) : PyVal → String
  | .vDict kvs =>
    fill (String.intercalate " | "
      ((kvs.filter (fun kv => match kv.2 with | .vNone => false | _ => true)).map
        (fun kv => kv.1 ++ ": " ++ pyStr kv.2))) width
  | item => fill (pyStr item) width

/-- `QueryEngine.format_result` (lines 122-145), with `textwrap.fill`
abstracted as the `fill` argument. -/
def format_result (fill : String → Nat → String) (result : QueryResult)
    (width : Nat) : String :=
  if !result.success then "Error: " ++ strOfError result.error
  else if pyFalsy result.result then "No results found."
  else match result.result with
    | .vList items =>
      if items.length == 0 then "No results found."
      else String.intercalate "\n\n" (items.map (formatItem fill width))
    | other => fill (pyStr other) width

/-- The four predefined query patterns of `QueryEngine._process_direct_query`. -/
inductive Pattern where
  | spatial
  | firmsCity
  | companiesCity
  | companyDesc
deriving DecidableEq

/-- External collaborators of the engine: the four catalog queries of
`GraphManager`, schema refresh, the LLM chain (`cypher_chain.run`) and the
low-level graph connectivity probe.  `Except.error` models a raised
Python exception. -/
structure Env where
  spatial_query : String → Except String PyVal
  get_investment_firms_by_city : String → Except String PyVal
  get_companies_by_city : String → Except String PyVal
  get_company_description : String → Except String PyVal
  refresh_schema : Except String String
  cypher_chain_run : String → Except String PyVal
  graph_probe : Except String PyVal

/-- One observable collaborator invocation made while processing a
question: a catalog query with its argument, or an LLM-synthesis call
with the submitted question text. -/
inductive CallEvent where
  | catalog (p : Pattern) (arg : String)
  | llm (question : String)
deriving DecidableEq

/-- The if/elif ladder of `_process_direct_query` (lines 49, 61, 72, 83):
first matching pattern on the lowercased question, in priority order. -/
def branchOf (question : String) : Option Pattern :=
  let ql := pyLower question
  if pyContains ql "investment firms" && pyContains ql "near" then some .spatial
  else if pyContains ql "investment firms" && pyContains ql "in" then some .firmsCity
  else if pyContains ql "companies" && pyContains ql "in" then some .companiesCity
  else if pyContains ql "what does" && pyContains ql "do" then some .companyDesc
  else none

/-- The entity a matched pattern requires: a company name for the
`what does` pattern, a city for the other three. -/
def requiredEntity : Pattern → String → Option String
  | .companyDesc, q => extractCompany q
  | _, q => extractCity q

/-- Dispatch of a matched pattern to its `GraphManager` catalog query
(`spatial_query` is invoked with `entity_type="Manager"` and the default
distance, as on line 53). -/
def catalogCall (env : Env) : Pattern → String → Except String PyVal
  | .spatial, city => env.spatial_query city
  | .firmsCity, city => env.get_investment_firms_by_city city
  | .companiesCity, city => env.get_companies_by_city city
  | .companyDesc, name => env.get_company_description name

/-- `CypherGenerator.generate_and_execute`: refresh the schema, run the
chain on the question, wrap the outcome; every exception is caught and
becomes a failed result.  The `llm` event records the LLM-synthesis
invocation with the submitted question text. -/
def generate_and_execute (env : Env) (question : String) :
    QueryResult × List CallEvent :=
  match env.refresh_schema with
  | .error e => (⟨false, question, .vNone, some e⟩, [.llm question])
  | .ok _ =>
    match env.cypher_chain_run question with
    | .ok r => (⟨true, question, r, none⟩, [.llm question])
    | .error e => (⟨false, question, .vNone, some e⟩, [.llm question])

/-- `QueryEngine._process_direct_query` (lines 44-100): first matching
pattern, required entity, catalog call; fall back to LLM synthesis with
the original question when no pattern matches, the entity is missing or
empty (the source guards each branch with Python truthiness, `if city:`
on lines 52/63/74 and `if company_name:` on line 86, so an extracted
empty string also falls through), or the catalog call raises. -/
def process_direct_query (env : Env) (question : String) :
    QueryResult × List CallEvent :=
  match branchOf question with
  | none => generate_and_execute env question
  | some p =>
    match requiredEntity p question with
    | none => generate_and_execute env question
    | some ent =>
      if ent.isEmpty then generate_and_execute env question
      else
        match catalogCall env p ent with
        | .ok r => (⟨true, question, r, none⟩, [.catalog p ent])
        | .error _ =>
          let fb := generate_and_execute env question
          (fb.1, .catalog p ent :: fb.2)

/-- `QueryEngine.process_query` (lines 23-38); in the source `use_llm`
defaults to `True`.  The surrounding `try/except` cannot fire because
both callees already absorb every collaborator exception. -/
def process_query (env : Env) (question : String) (use_llm : Bool) :
    QueryResult × List CallEvent :=
  if use_llm then generate_and_execute env question
  else process_direct_query env question

/-- Number of catalog invocations in a trace. -/
def countCatalog (evs : List CallEvent) : Nat :=
  (evs.filter (fun e => match e with | .catalog _ _ => true | _ => false)).length

/-- Number of LLM-synthesis invocations in a trace. -/
def countLLM (evs : List CallEvent) : Nat :=
  (evs.filter (fun e => match e with | .llm _ => true | _ => false)).length

/-- The question texts submitted to LLM synthesis, in order. -/
def llmArgs (evs : List CallEvent) : List String :=
  evs.filterMap (fun e => match e with | .llm q => some q | _ => none)

/-- `GraphManager.health_check` (lines 132-139): probe the graph with a
trivial query; any exception yields `False`. -/
def graph_health_check (env : Env) : Bool :=
  match env.graph_probe with
  | .ok _ => true
  | .error _ => false

/-- The dict returned by `QueryEngine.health_check` (fixed keys
`graph_database`, `cypher_generation`, `overall`). -/
structure HealthReport where
  graph_database : String
  cypher_generation : String
  overall : String
deriving DecidableEq

/-- `QueryEngine.health_check` (lines 147-159); the canned question is
processed through `process_query` with its default `use_llm=True`. -/
def health_check (env : Env) : HealthReport :=
  let graph_healthy := graph_health_check env
  let cypher_test :=
    (process_query env "What investment firms are in San Francisco?" true).1
  let cypher_healthy := cypher_test.success
  ⟨if graph_healthy then "healthy" else "unhealthy",
   if cypher_healthy then "healthy" else "unhealthy",
   if graph_healthy && cypher_healthy then "healthy" else "unhealthy"⟩

/-- Whether the direct path falls back to LLM synthesis: no pattern
matched, the required entity is missing or empty (the source's `if
city:` / `if company_name:` truthiness guards), or the catalog call
raised. -/
def direct_falls_back (env : Env) (question : String) : Bool :=
  match branchOf question with
  | none => true
  | some p =>
    match requiredEntity p question with
    | none => true
    | some ent =>
      if ent.isEmpty then true
      else
        match catalogCall env p ent with
        | .ok _ => false
        | .error _ => true

/-- A concrete environment in which every collaborator succeeds. -/
def env0 : Env where
  spatial_query := fun _ => .ok (.vList [])
  get_investment_firms_by_city := fun _ => .ok (.vList [])
  get_companies_by_city := fun _ =>
    .ok (.vList [.vDict [("com.companyName", .vStr "Acme Corp")]])
  get_company_description := fun _ => .ok (.vList [.vDict [("c.text", .vStr "desc")]])
  refresh_schema := .ok "schema"
  cypher_chain_run := fun _ => .ok (.vList [])
  graph_probe := .ok (.vList [.vDict [("test", .vInt 1)]])

/-- A concrete environment in which the graph is unreachable and the LLM
chain raises. -/
def envFail : Env where
  spatial_query := fun _ => .error "connection refused"
  get_investment_firms_by_city := fun _ => .error "connection refused"
  get_companies_by_city := fun _ => .error "connection refused"
  get_company_description := fun _ => .error "connection refused"
  refresh_schema := .error "connection refused"
  cypher_chain_run := fun _ => .error "LLM failure"
  graph_probe := .error "connection refused"

/-- Strip characters of `cs` from the trailing end only. -/
def pyRStripChars (s : String) (cs : List Char) : String :=
  String.mk ((s.toList.reverse.dropWhile (fun c => cs.contains c)).reverse)

/-- Spec-side city extractor following the claim's words, reading
"stripped of trailing punctuation" literally: the token after the first
trigger word that has a following token, with only trailing `.,!?`
removed. -/
def extractCitySpecTrailing (q : String) : Option String :=
  (((pyWords q).zip (pyWords q).tail).find?
      (fun p => trigger_words.contains (pyLower p.1))).map
    (fun p => pyRStripChars p.2 city_punct)

/-- Spec-side city extractor amended to match the source: the punctuation
characters are stripped from both ends of the following token. -/
def extractCitySpecStripped (q : String) : Option String :=
  (((pyWords q).zip (pyWords q).tail).find?
      (fun p => trigger_words.contains (pyLower p.1))).map
    (fun p => pyStripChars p.2 city_punct)

/-- First index of `l` at which `pat` starts, expressed by searching the
index range (spec-side formulation of substring search). -/
def specFind (pat l : List Char) : Option Nat :=
  (List.range (l.length + 1)).find? (fun i => pat.isPrefixOf (l.drop i))

/-- Does a standalone-word occurrence of `"do"` start at index `i` of
`l`?  The two characters `do` must be present and not be surrounded by
alphanumeric characters. -/
def standaloneDoAt (l : List Char) (i : Nat) : Bool :=
  ("do".toList.isPrefixOf (l.drop i)) &&
  (i == 0 || !((l.getD (i - 1) ' ').isAlphanum)) &&
  (match l.drop (i + 2) with | [] => true | c :: _ => !c.isAlphanum)

/-- Spec-side company extractor following the claim's words: the closing
delimiter is the next standalone word `"do"` at or after the end of
`"what does"`. -/
def extractCompanySpecWord (q : String) : Option String :=
  let ql := (pyLower q).toList
  if pyContains (pyLower q) "what does" then
    match specFind ("what does".toList) ql with
    | none => none
    | some i =>
      let start := i + 9
      match ((List.range (ql.length + 1)).filter (fun j => decide (start ≤ j))).find?
          (fun j => standaloneDoAt ql j) with
      | none => none
      | some e =>
        some (pyStripWS (String.mk ((q.toList.drop start).take (e - start))))
  else none

/-- Spec-side company extractor amended to match the source: the closing
delimiter is the next occurrence of the substring `"do"` (which may lie
inside a longer word) at or after the end of `"what does"`. -/
def extractCompanySpecSub (q : String) : Option String :=
  let ql := (pyLower q).toList
  if pyContains (pyLower q) "what does" then
    match specFind ("what does".toList) ql with
    | none => none
    | some i =>
      let start := i + 9
      match specFind ("do".toList) (ql.drop start) with
      | none => none
      | some j => some (pyStripWS (String.mk ((q.toList.drop start).take j)))
  else none

/-- A trivial stand-in for `textwrap.fill` used in concrete evaluations
(the formatter theorems hold for every `fill`). -/
def fillId (s : String) (_width : Nat) : String := s

/-! ## Theorems -/

/-- Shape of every result produced by `generate_and_execute`: the error
is present iff success is false, the payload is `None` on failure, the
question is preserved, and the trace is exactly one LLM call. -/
theorem gae_shape (env : Env) (q : String) :
    ((generate_and_execute env q).1.error.isSome = true ↔
      (generate_and_execute env q).1.success = false) ∧
    ((generate_and_execute env q).1.success = false →
      (generate_and_execute env q).1.result = PyVal.vNone) ∧
    (generate_and_execute env q).1.question = q ∧
    (generate_and_execute env q).2 = [CallEvent.llm q] := by
  unfold generate_and_execute
  cases h1 : env.refresh_schema with
  | error e => simp
  | ok s =>
    cases h2 : env.cypher_chain_run q with
    | ok r => simp
    | error e => simp

/-- Case split for the direct path: the result is either a success built
from a catalog answer, or exactly the result of the LLM fallback. -/
theorem pdq_result_cases (env : Env) (q : String) :
    (∃ r, (process_direct_query env q).1 = ⟨true, q, r, none⟩) ∨
    (process_direct_query env q).1 = (generate_and_execute env q).1 := by
  unfold process_direct_query
  split
  · exact Or.inr rfl
  · split
    · exact Or.inr rfl
    · split
      · exact Or.inr rfl
      · split
        · exact Or.inl ⟨_, rfl⟩
        · exact Or.inr rfl

/-- C2: `process_query` never raises: for every question, every
collaborator behaviour (including raising collaborators) and either
`use_llm` flag, it returns a result in which the error message is present
iff success is false, the payload is `None` when success is false, and
the question field is the original input text unchanged. -/
theorem process_query_result_invariant (env : Env) (q : String) (b : Bool) :
    ((process_query env q b).1.error.isSome = true ↔
      (process_query env q b).1.success = false) ∧
    ((process_query env q b).1.success = false →
      (process_query env q b).1.result = PyVal.vNone) ∧
    (process_query env q b).1.question = q := by
  obtain ⟨h1, h2, h3, -⟩ := gae_shape env q
  cases b with
  | true => exact ⟨h1, h2, h3⟩
  | false =>
    have hpq : process_query env q false = process_direct_query env q := rfl
    rcases pdq_result_cases env q with ⟨r, hr⟩ | hr
    · rw [hpq, hr]; simp
    · rw [hpq, hr]; exact ⟨h1, h2, h3⟩

/-- C2 witness: at a concrete failing environment the invariant is
discharged at a concrete input. -/
theorem process_query_result_invariant_witness :
    (process_query envFail "What firms exist?" true).1.result = PyVal.vNone :=
  (process_query_result_invariant envFail "What firms exist?" true).2.1 (by rfl)

/-- C8: formatter totality: for every wrap function, result and width,
`format_result` is defined and yields a string (the Lean embedding is a
total function, mirroring that the Python code raises on no representable
payload shape). -/
theorem format_result_total (fill : String → Nat → String) (r : QueryResult)
    (w : Nat) : ∃ s : String, format_result fill r w = s :=
  ⟨format_result fill r w, rfl⟩

/-- C9: the overall health status is `"healthy"` iff both the graph probe
and the canned-question routing probe succeed; when the graph probe fails
the graph subsystem and the overall status are `"unhealthy"` regardless
of the routing outcome. -/
theorem health_check_overall_iff (env : Env) :
    ((health_check env).overall = "healthy" ↔
      (graph_health_check env = true ∧
        (process_query env "What investment firms are in San Francisco?" true).1.success
          = true)) ∧
    (graph_health_check env = false →
      (health_check env).graph_database = "unhealthy" ∧
      (health_check env).overall = "unhealthy") := by
  unfold health_check
  cases hg : graph_health_check env <;>
    cases hc :
      (process_query env "What investment firms are in San Francisco?" true).1.success <;>
      simp [hc]

/-- C9 witness: with the graph unreachable (and the LLM also failing) the
report marks the graph subsystem and the overall status unhealthy. -/
theorem health_check_overall_witness :
    (health_check envFail).graph_database = "unhealthy" ∧
    (health_check envFail).overall = "unhealthy" :=
  (health_check_overall_iff envFail).2 (by rfl)

/-- Trace of the direct path: on a non-fallback run the trace is one
catalog call; on a fallback run it is one LLM call, optionally preceded
by the one catalog call that raised. -/
theorem pdq_trace (env : Env) (q : String) :
    (direct_falls_back env q = false ∧
      ∃ p ent, (process_direct_query env q).2 = [CallEvent.catalog p ent]) ∨
    (direct_falls_back env q = true ∧
      ((process_direct_query env q).2 = [CallEvent.llm q] ∨
        ∃ p ent, (process_direct_query env q).2 =
          [CallEvent.catalog p ent, CallEvent.llm q])) := by
  obtain ⟨-, -, -, hev⟩ := gae_shape env q
  unfold process_direct_query direct_falls_back
  split
  · exact Or.inr ⟨rfl, Or.inl (by rw [hev])⟩
  · split
    · exact Or.inr ⟨rfl, Or.inl (by rw [hev])⟩
    · split
      · exact Or.inr ⟨rfl, Or.inl (by rw [hev])⟩
      · split
        · exact Or.inl ⟨rfl, _, _, rfl⟩
        · exact Or.inr ⟨rfl, Or.inr ⟨_, _, by dsimp only; rw [hev]⟩⟩

/-- C3: on the direct-dispatch path, whenever no pattern matches, the
required entity is missing, or the catalog call raises, exactly one
LLM-synthesis call is made and it receives the original (non-lowercased)
question; and every run makes at most one catalog call and at most one
LLM call. -/
theorem direct_dispatch_fallback_and_call_bounds (env : Env) (q : String) :
    countCatalog (process_query env q false).2 ≤ 1 ∧
    countLLM (process_query env q false).2 ≤ 1 ∧
    (direct_falls_back env q = true →
      llmArgs (process_query env q false).2 = [q]) := by
  have hpq : process_query env q false = process_direct_query env q := rfl
  rw [hpq]
  rcases pdq_trace env q with ⟨hf, p, ent, htr⟩ | ⟨hf, htr | ⟨p, ent, htr⟩⟩ <;>
    rw [htr] <;> simp [countCatalog, countLLM, llmArgs, hf]

/-- C3 witness: a question matching no pattern goes to the LLM exactly
once, with the original text. -/
theorem direct_dispatch_fallback_witness :
    llmArgs (process_query env0 "Hello there" false).2 = ["Hello there"] :=
  (direct_dispatch_fallback_and_call_bounds env0 "Hello there").2.2 (by rfl)

/-- C1 counterexample: under the source's default arguments
(`use_llm=True`) a companies-in question with an extractable city and a
succeeding catalog is routed straight to LLM synthesis — zero catalog
calls and one LLM call — refuting the claim's "catalog exactly once, no
LLM synthesis". -/
theorem companies_in_default_args_cx :
    pyContains (pyLower "What companies are in Boston?") "companies" = true ∧
    pyContains (pyLower "What companies are in Boston?") "in" = true ∧
    extractCity "What companies are in Boston?" = some "Boston" ∧
    (env0.get_companies_by_city "Boston").isOk = true ∧
    countCatalog (process_query env0 "What companies are in Boston?" true).2 = 0 ∧
    countLLM (process_query env0 "What companies are in Boston?" true).2 = 1 ∧
    ¬(countCatalog (process_query env0 "What companies are in Boston?" true).2 = 1 ∧
      countLLM (process_query env0 "What companies are in Boston?" true).2 = 0) := by
  decide

/-- C1 (amended): for every question containing `"companies"` and `"in"`
(case-insensitively) but not `"investment firms"`, with an extractable
non-empty city (the source's `if city:` truthiness guard), processing
through `process_query` with `use_llm=False` (the direct-dispatch path)
invokes the companies-by-city catalog query exactly once and does not
invoke LLM synthesis, provided the catalog call succeeds. -/
theorem companies_in_direct_path (env : Env) (q city : String) (r : PyVal)
    (hc : pyContains (pyLower q) "companies" = true)
    (hin : pyContains (pyLower q) "in" = true)
    (hni : pyContains (pyLower q) "investment firms" = false)
    (hcity : extractCity q = some city)
    (hne : city.isEmpty = false)
    (hok : env.get_companies_by_city city = Except.ok r) :
    (process_query env q false).2 = [CallEvent.catalog Pattern.companiesCity city] ∧
    countLLM (process_query env q false).2 = 0 ∧
    (process_query env q false).1 = ⟨true, q, r, none⟩ := by
  have hb : branchOf q = some Pattern.companiesCity := by
    unfold branchOf
    simp [hc, hin, hni]
  have hpq : process_query env q false = process_direct_query env q := rfl
  rw [hpq]
  unfold process_direct_query
  simp only [hb, requiredEntity, hcity, hne, catalogCall, hok, countLLM]
  simp [List.filter]

/-- C1 witness: a concrete companies-in question on the direct path hits
the catalog once and never the LLM. -/
theorem companies_in_direct_path_witness :
    (process_query env0 "What companies are in Boston?" false).2 =
      [CallEvent.catalog Pattern.companiesCity "Boston"] ∧
    countLLM (process_query env0 "What companies are in Boston?" false).2 = 0 :=
  ⟨(companies_in_direct_path env0 "What companies are in Boston?" "Boston"
      (PyVal.vList [PyVal.vDict [("com.companyName", PyVal.vStr "Acme Corp")]])
      (by decide) (by decide) (by decide) (by decide) (by decide) rfl).1,
   (companies_in_direct_path env0 "What companies are in Boston?" "Boston"
      (PyVal.vList [PyVal.vDict [("com.companyName", PyVal.vStr "Acme Corp")]])
      (by decide) (by decide) (by decide) (by decide) (by decide) rfl).2.1⟩

/-- Substring membership as modelled agrees with `List.IsInfix`. -/
theorem containsSubAux_iff_infix (pat : List Char) (l : List Char) :
    containsSubAux pat l = true ↔ pat <:+: l := by
  induction l with
  | nil =>
    simp [containsSubAux, List.isEmpty_iff, List.infix_nil]
  | cons c t ih =>
    simp [containsSubAux, List.isPrefixOf_iff_prefix, ih, List.infix_cons_iff]

/-- `pyContains` is monotone under substring containment of the pattern. -/
theorem pyContains_of_infix (s : String) (p₁ p₂ : String)
    (hsub : p₁.toList <:+: p₂.toList)
    (h : pyContains s p₂ = true) : pyContains s p₁ = true := by
  rw [pyContains, containsSubAux_iff_infix] at h ⊢
  exact hsub.trans h

/-- C10: the router's substring tests make two conjuncts vacuous: a
question containing `"investment firms"` necessarily contains `"in"`, and
one containing `"what does"` necessarily contains `"do"`; hence the
investment-firms-in branch fires exactly on (contains `"investment
firms"` and not `"near"`), and the `what does` branch's conjunction is
equivalent to containing `"what does"` alone. -/
theorem router_vacuous_conjuncts (q : String) :
    (pyContains (pyLower q) "investment firms" = true →
      pyContains (pyLower q) "in" = true) ∧
    (pyContains (pyLower q) "what does" = true →
      pyContains (pyLower q) "do" = true) ∧
    (branchOf q = some Pattern.firmsCity ↔
      (pyContains (pyLower q) "investment firms" = true ∧
        pyContains (pyLower q) "near" = false)) ∧
    ((pyContains (pyLower q) "what does" = true ∧
        pyContains (pyLower q) "do" = true) ↔
      pyContains (pyLower q) "what does" = true) := by
  have h1 : pyContains (pyLower q) "investment firms" = true →
      pyContains (pyLower q) "in" = true :=
    pyContains_of_infix _ _ _ (by decide)
  have h2 : pyContains (pyLower q) "what does" = true →
      pyContains (pyLower q) "do" = true :=
    pyContains_of_infix _ _ _ (by decide)
  refine ⟨h1, h2, ?_, ?_⟩
  · unfold branchOf
    cases hif : pyContains (pyLower q) "investment firms" with
    | false =>
      simp [hif]
      split
      · simp
      · split <;> simp
    | true =>
      cases hnear : pyContains (pyLower q) "near" with
      | false => simp [hif, hnear, h1 hif]
      | true => simp [hif, hnear]
  · exact ⟨fun h => h.1, fun h => ⟨h, h2 h⟩⟩

set_option maxRecDepth 100000 in
/-- C4: `validate_question` accepts exactly the texts that are non-empty
after trimming, have trimmed length at least 3, raw length at most 1000
and contain no denylist substring case-insensitively; the 2/3/1000/1001
boundary instances behave as claimed and `"password reset help"` is
rejected citing inappropriate terms. -/
theorem validate_question_characterization :
    (∀ q : String, (validate_question q).1 = true ↔
      ((pyStripWS q).toList ≠ [] ∧ 3 ≤ pyLen (pyStripWS q) ∧ pyLen q ≤ 1000 ∧
        (inappropriate_terms.any (fun term => pyContains (pyLower q) term)) = false)) ∧
    (validate_question "ab").1 = false ∧
    (validate_question "abc").1 = true ∧
    (validate_question (String.mk (List.replicate 1000 'a'))).1 = true ∧
    (validate_question (String.mk (List.replicate 1001 'a'))).1 = false ∧
    validate_question "password reset help" =
      (false, some "Question contains inappropriate terms") := by
  refine ⟨?_, by decide, by decide, by decide, by decide, by decide⟩
  intro q
  have hmk : (pyStripWS q).toList = stripList Char.isWhitespace q.toList := rfl
  unfold validate_question
  split
  · next h =>
    simp only [Bool.or_eq_true, List.isEmpty_iff] at h
    refine iff_of_false (by simp) ?_
    rintro ⟨hne, -, -, -⟩
    rcases h with h | h
    · exact hne (by rw [hmk, h]; rfl)
    · exact hne h
  · split
    · next h2 =>
      refine iff_of_false (by simp) ?_
      rintro ⟨-, h3, -, -⟩
      omega
    · split
      · next h3 =>
        refine iff_of_false (by simp) ?_
        rintro ⟨-, -, hlen, -⟩
        omega
      · split
        · next h4 =>
          refine iff_of_false (by simp) ?_
          rintro ⟨-, -, -, hany⟩
          rw [h4] at hany
          simp at hany
        · rename_i h1 h2 h3 h4
          refine iff_of_true rfl ⟨?_, by omega, by omega, Bool.eq_false_iff.mpr h4⟩
          simp only [Bool.or_eq_true, List.isEmpty_iff, not_or] at h1
          exact h1.2

/-- The scanning loop of city extraction agrees with the adjacent-pairs
formulation used by the spec-side definitions. -/
theorem extractCityGo_eq (ws : List String) :
    extractCityGo ws =
      ((ws.zip ws.tail).find? (fun p => trigger_words.contains (pyLower p.1))).map
        (fun p => pyStripChars p.2 city_punct) := by
  match ws with
  | [] => rfl
  | [w] => rfl
  | w :: next :: rest =>
    rw [extractCityGo]
    by_cases h : pyLower w ∈ trigger_words
    · simp [List.find?_cons, h]
    · simp [List.find?_cons, h, extractCityGo_eq (next :: rest)]

/-- C5 counterexample: the source strips the punctuation characters from
both ends (Python `strip`), not only trailing ones: on
`"What companies are in ,Boston,"` the code yields `"Boston"` while the
claimed trailing-only stripping yields `",Boston"`. -/
theorem extract_city_trailing_cx :
    extractCity "What companies are in ,Boston," = some "Boston" ∧
    extractCitySpecTrailing "What companies are in ,Boston," = some ",Boston" ∧
    extractCity "What companies are in ,Boston," ≠
      extractCitySpecTrailing "What companies are in ,Boston," := by
  decide

/-- C5 (amended): `extract_city` returns the token immediately following
the first whitespace-delimited token case-insensitively equal to `"in"`,
`"near"` or `"at"` that has a following token, with the punctuation
characters `.,!?` stripped from both ends (not only trailing), and is
absent when no trigger word has a following token; on
`"What companies are in Santa Clara?"` it yields exactly `"Santa"`. -/
theorem extract_city_amended (q : String) :
    extractCity q = extractCitySpecStripped q ∧
    extractCity "What companies are in Santa Clara?" = some "Santa" := by
  refine ⟨?_, by decide⟩
  rw [extractCity, extractCitySpecStripped, extractCityGo_eq]

/-- The recursive substring search agrees with the first-index-in-range
formulation used by the spec-side definitions. -/
theorem findSubAux_eq (pat : List Char) (l : List Char) :
    findSubAux pat l = specFind pat l := by
  induction l with
  | nil => cases pat <;> rfl
  | cons c t ih =>
    rw [findSubAux, specFind, List.range_succ_eq_map, List.find?_cons]
    simp only [List.drop_zero]
    cases h : pat.isPrefixOf (c :: t) with
    | true => simp [h]
    | false =>
      simp only [h, List.find?_map, ih, specFind, List.length_cons]
      rw [show ((fun i => pat.isPrefixOf (List.drop i (c :: t))) ∘ Nat.succ)
          = fun i => pat.isPrefixOf (List.drop i t) from funext fun i => rfl]
      rw [show (Nat.succ : Nat → Nat) = fun x => x + 1 from funext fun x => rfl]
      simp

/-- C6 counterexample: the source finds `"do"` as a plain substring, not
as a standalone word: on `"What does Adobe do?"` it cuts at the `do`
inside `"Adobe"` and returns `"A"`, while the claimed standalone-word
reading returns `"Adobe"`. -/
theorem extract_company_standalone_cx :
    extractCompany "What does Adobe do?" = some "A" ∧
    extractCompanySpecWord "What does Adobe do?" = some "Adobe" ∧
    extractCompany "What does Adobe do?" ≠
      extractCompanySpecWord "What does Adobe do?" := by
  decide

/-- C6 (amended): `extract_company` returns a value only when the
question contains `"what does"` case-insensitively, in which case it
returns the substring strictly between the end of `"what does"` and the
next following case-insensitive occurrence of the substring `"do"`
(which may occur inside a longer word, with no word-boundary check),
trimmed of whitespace; it is absent when no such occurrence follows. -/
theorem extract_company_amended (q : String) :
    extractCompany q = extractCompanySpecSub q := by
  rw [extractCompany, extractCompanySpecSub]
  cases h : pyContains (pyLower q) "what does" with
  | false => simp [h]
  | true =>
    simp only [h, if_true]
    rw [findSubAux_eq]
    cases hi : specFind ("what does".toList) (pyLower q).toList with
    | none => rfl
    | some i =>
      simp only
      rw [pyFindFrom, findSubAux_eq]
      cases hj : specFind ("do".toList) ((pyLower q).toList.drop (i + 9)) with
      | none => rfl
      | some j => simp

/-- C7 counterexample: Python truthiness makes a falsy scalar payload
(here the empty string) also format as `"No results found."`, refuting
the claimed "if and only if the payload is absent or an empty sequence"
— the empty string is neither absent nor a sequence. -/
theorem format_result_falsy_scalar_cx :
    format_result fillId ⟨true, "q", PyVal.vStr "", none⟩ 80 = "No results found." ∧
    PyVal.vStr "" ≠ PyVal.vNone ∧
    PyVal.vStr "" ≠ PyVal.vList [] :=
  ⟨rfl, fun h => PyVal.noConfusion h, fun h => PyVal.noConfusion h⟩

/-- C7 (amended): on failure `format_result` returns `"Error: "` plus the
message; it returns `"No results found."` whenever success holds and the
payload is falsy in Python's sense (absent, empty sequence, or a falsy
scalar such as the empty string or zero); a non-empty sequence is
rendered record-by-record (non-absent fields as `"key: value"` joined by
`" | "`, word-wrapped, records joined by a blank line); and a truthy
non-sequence payload is word-wrapped from its string form directly. -/
theorem format_result_amended :
    (∀ fill (r : QueryResult) (w : Nat), r.success = false →
      format_result fill r w = "Error: " ++ strOfError r.error) ∧
    (∀ fill (r : QueryResult) (w : Nat), r.success = true →
      pyFalsy r.result = true →
      format_result fill r w = "No results found.") ∧
    (∀ fill (r : QueryResult) (w : Nat) items, r.success = true →
      r.result = PyVal.vList items → items ≠ [] →
      format_result fill r w =
        String.intercalate "\n\n" (items.map (formatItem fill w))) ∧
    (∀ fill (r : QueryResult) (w : Nat), r.success = true →
      pyFalsy r.result = false → (∀ items, r.result ≠ PyVal.vList items) →
      format_result fill r w = fill (pyStr r.result) w) := by
  refine ⟨?_, ?_, ?_, ?_⟩
  · intro fill r w h
    simp [format_result, h]
  · intro fill r w hs hf
    simp [format_result, hs, hf]
  · intro fill r w items hs hres hne
    have hf : pyFalsy (PyVal.vList items) = false := by
      simpa [pyFalsy, List.isEmpty_iff] using hne
    have hlen : (items.length == 0) = false := by
      simpa [List.length_eq_zero] using hne
    simp [format_result, hs, hf, hres, hlen]
  · intro fill r w hs hf hnl
    cases hr : r.result with
    | vList items => exact absurd hr (hnl items)
    | vNone => rw [hr] at hf; simp [pyFalsy] at hf
    | vBool b => rw [hr] at hf; simp [format_result, hs, hr, hf]
    | vInt n => rw [hr] at hf; simp [format_result, hs, hr, hf]
    | vStr s => rw [hr] at hf; simp [format_result, hs, hr, hf]
    | vDict kvs => rw [hr] at hf; simp [format_result, hs, hr, hf]

/-- C7 witness: one concrete run of each amended clause: an error result,
a `None` payload, a one-element list payload and a truthy scalar. -/
theorem format_result_amended_witness :
    format_result fillId ⟨false, "q", PyVal.vNone, some "boom"⟩ 80 = "Error: boom" ∧
    format_result fillId ⟨true, "q", PyVal.vNone, none⟩ 80 = "No results found." ∧
    format_result fillId ⟨true, "q", PyVal.vList [PyVal.vInt 3], none⟩ 80 = "3" ∧
    format_result fillId ⟨true, "q", PyVal.vStr "hi", none⟩ 80 = "hi" := by
  refine ⟨?_, ?_, ?_, ?_⟩
  · rw [format_result_amended.1 fillId ⟨false, "q", PyVal.vNone, some "boom"⟩ 80 rfl]
    rfl
  · exact format_result_amended.2.1 fillId ⟨true, "q", PyVal.vNone, none⟩ 80 rfl rfl
  · rw [format_result_amended.2.2.1 fillId ⟨true, "q", PyVal.vList [PyVal.vInt 3], none⟩
      80 [PyVal.vInt 3] rfl rfl (by simp)]
    rfl
  · rw [format_result_amended.2.2.2 fillId ⟨true, "q", PyVal.vStr "hi", none⟩ 80 rfl rfl
      (fun items h => PyVal.noConfusion h)]
    rfl

/-- C10 witness: on a concrete investment-firms question the vacuous
`"in"` conjunct and the branch equivalence are realized. -/
theorem router_vacuous_conjuncts_witness :
    pyContains (pyLower "investment firms downtown") "in" = true ∧
    branchOf "investment firms downtown" = some Pattern.firmsCity :=
  ⟨(router_vacuous_conjuncts "investment firms downtown").1 (by decide),
   ((router_vacuous_conjuncts "investment firms downtown").2.2.1).2
     ⟨by decide, by decide⟩⟩

end SecKG
